import Mathlib

/-!
Verification of the Copeland–Galai equilibrium bid/ask calculator
(`technical_analysis/utils.py`, class `CopelandGalaiCalc`).

The two solver entry points `bid_ask_normal` and `bid_ask_exponential` are
embedded as functions over `ℝ`, parametrised over the external root finder
(scipy's `fsolve`), which the Python code calls with the closed-over profit
function and the initial guess.  The inner `_expected_profit` closures and
all of their intermediate quantities (`a`, `b`, `z_a`, `z_b`, `E_V_gt_a`,
`E_V_lt_b`, `profit_ask`, `profit_bid`) are embedded as named definitions,
one per source line.  `scipy.stats.norm.pdf`/`cdf` are modelled as the
standard normal density and its cumulative integral over `ℝ`.
-/

open MeasureTheory

noncomputable section

namespace CopelandGalaiCalc

/-- Standard normal density, the mathematical function computed by
`scipy.stats.norm.pdf`. -/
def normPdf (x : ℝ) : ℝ := Real.exp (-x ^ 2 / 2) / Real.sqrt (2 * Real.pi)

/-- Standard normal cumulative distribution function, the mathematical
function computed by `scipy.stats.norm.cdf`. -/
def normCdf (x : ℝ) : ℝ := ∫ t in Set.Iic x, normPdf t

/-! Embedding of the body of `bid_ask_normal._expected_profit`, line by line. -/

/-- Source line `a = mu + S / 2` (ask quote). -/
def normalAsk (mu S : ℝ) : ℝ := mu + S / 2

/-- Source line `b = mu - S / 2` (bid quote). -/
def normalBid (mu S : ℝ) : ℝ := mu - S / 2

/-- Source line `z_a = (a - mu) / sigma`. -/
def normal_z_a (mu sigma S : ℝ) : ℝ := (normalAsk mu S - mu) / sigma

/-- Source line `z_b = (mu - b) / sigma`. -/
def normal_z_b (mu sigma S : ℝ) : ℝ := (mu - normalBid mu S) / sigma

/-- Source line `E_V_gt_a = mu + sigma * norm.pdf(z_a) / (1 - norm.cdf(z_a))`. -/
def normalE_V_gt_a (mu sigma S : ℝ) : ℝ :=
mu + sigma * normPdf (normal_z_a mu sigma S) / (1 - normCdf (normal_z_a mu sigma S))

/-- Source line `E_V_lt_b = mu - sigma * norm.pdf(z_b) / norm.cdf(z_b)`. -/
def normalE_V_lt_b (mu sigma S : ℝ) : ℝ :=
mu - sigma * normPdf (normal_z_b mu sigma S) / normCdf (normal_z_b mu sigma S)

/-- Source line `profit_ask = (1 - pi) * (a - mu) + pi * (a - E_V_gt_a)`. -/
def normalProfitAsk (mu sigma pi S : ℝ) : ℝ :=
(1 - pi) * (normalAsk mu S - mu) + pi * (normalAsk mu S - normalE_V_gt_a mu sigma S)

/-- Source line `profit_bid = (1 - pi) * (mu - b) + pi * (E_V_lt_b - b)`. -/
def normalProfitBid (mu sigma pi S : ℝ) : ℝ :=
(1 - pi) * (mu - normalBid mu S) + pi * (normalE_V_lt_b mu sigma S - normalBid mu S)

/-- Source line `return 0.5 * (profit_ask + profit_bid)`: the profit function
`bid_ask_normal` hands to `fsolve`. -/
def normalExpectedProfit (mu sigma pi S : ℝ) : ℝ :=
0.5 * (normalProfitAsk mu sigma pi S + normalProfitBid mu sigma pi S)

/-- `CopelandGalaiCalc.bid_ask_normal`, parametrised over the external root
finder (`fsolve`): `spread = fsolve(_expected_profit, initial_guess)`,
`ask = mu + spread/2`, `bid = mu - spread/2`, returning `(bid, ask, spread)`.
The source performs no validation of `sigma` or `pi`. -/
def bid_ask_normal (fsolve : (ℝ → ℝ) → ℝ → ℝ)
    (mu sigma pi initial_guess : ℝ) : ℝ × ℝ × ℝ :=
(mu - fsolve (normalExpectedProfit mu sigma pi) initial_guess / 2,
 mu + fsolve (normalExpectedProfit mu sigma pi) initial_guess / 2,
 fsolve (normalExpectedProfit mu sigma pi) initial_guess)

/-! Embedding of the body of `bid_ask_exponential._expected_profit`. -/

/-- Source line `EV = 1.0 / lam`. -/
def expEV (lam : ℝ) : ℝ := 1 / lam

/-- Source line `a = EV + S / 2`. -/
def expAsk (lam S : ℝ) : ℝ := expEV lam + S / 2

/-- Source line `b = EV - S / 2`. -/
def expBid (lam S : ℝ) : ℝ := expEV lam - S / 2

/-- Source line `E_V_gt_a = a + 1 / lam`. -/
def expE_V_gt_a (lam S : ℝ) : ℝ := expAsk lam S + 1 / lam

/-- Source line
`E_V_lt_b = (1 - np.exp(-lam * b) * (1 + lam * b)) / (lam * (1 - np.exp(-lam * b)))`.
There is no branch: the ratio is computed unconditionally. -/
def expE_V_lt_b (lam S : ℝ) : ℝ :=
(1 - Real.exp (-(lam * expBid lam S)) * (1 + lam * expBid lam S)) /
  (lam * (1 - Real.exp (-(lam * expBid lam S))))

/-- Source line `profit_ask = (1 - pi) * (a - EV) + pi * (a - E_V_gt_a)`. -/
def expProfitAsk (lam pi S : ℝ) : ℝ :=
(1 - pi) * (expAsk lam S - expEV lam) + pi * (expAsk lam S - expE_V_gt_a lam S)

/-- Source line `profit_bid = (1 - pi) * (EV - b) + pi * (E_V_lt_b - b)`. -/
def expProfitBid (lam pi S : ℝ) : ℝ :=
(1 - pi) * (expEV lam - expBid lam S) + pi * (expE_V_lt_b lam S - expBid lam S)

/-- Source line `return 0.5 * (profit_ask + profit_bid)`. -/
def expExpectedProfit (lam pi S : ℝ) : ℝ :=
0.5 * (expProfitAsk lam pi S + expProfitBid lam pi S)

/-- `CopelandGalaiCalc.bid_ask_exponential`, parametrised over the external
root finder.  The source performs no validation of `lam` or `pi`. -/
def bid_ask_exponential (fsolve : (ℝ → ℝ) → ℝ → ℝ)
    (lam pi initial_guess : ℝ) : ℝ × ℝ × ℝ :=
(expEV lam - fsolve (expExpectedProfit lam pi) initial_guess / 2,
 expEV lam + fsolve (expExpectedProfit lam pi) initial_guess / 2,
 fsolve (expExpectedProfit lam pi) initial_guess)

/-! Spec-side definitions, written from the specification's words, to be
compared with the code-side definitions above. -/

/-- Spec §4.2 profit function: with center `c`, `a = c + S/2`, `b = c - S/2`,
`profit_ask = (1-π)(a-c) + π(a - E[V|V>a])`,
`profit_bid = (1-π)(c-b) + π(E[V|V<b] - b)`,
`profit(S) = 0.5 * (profit_ask + profit_bid)`, where the conditional
expectations are supplied by the conditional-expectation engine. -/
def specProfit (c : ℝ) (upper lower : ℝ → ℝ) (pi S : ℝ) : ℝ :=
0.5 * (((1 - pi) * ((c + S / 2) - c) + pi * ((c + S / 2) - upper (c + S / 2))) +
  ((1 - pi) * (c - (c - S / 2)) + pi * (lower (c - S / 2) - (c - S / 2))))

/-- Spec §4.1, Normal upper tail: `E[V | V > a] = μ + σ·φ(z_a)/(1 − Φ(z_a))`
with `z_a = (a − μ)/σ`. -/
def specNormalUpper (mu sigma a : ℝ) : ℝ :=
mu + sigma * normPdf ((a - mu) / sigma) / (1 - normCdf ((a - mu) / sigma))

/-- Spec §4.1, Normal lower tail: `E[V | V < b] = μ − σ·φ(z_b)/Φ(z_b)` with
`z_b = (μ − b)/σ`. -/
def specNormalLower (mu sigma b : ℝ) : ℝ :=
mu - sigma * normPdf ((mu - b) / sigma) / normCdf ((mu - b) / sigma)

/-- Spec §4.1, Exponential upper tail: `E[V | V > a] = a + 1/λ`. -/
def specExpUpper (lam a : ℝ) : ℝ := a + 1 / lam

/-- Spec §4.1, Exponential lower tail:
`E[V | V < b] = (1 − e^{−λb}(1 + λb)) / (λ(1 − e^{−λb}))`. -/
def specExpLower (lam b : ℝ) : ℝ :=
(1 - Real.exp (-(lam * b)) * (1 + lam * b)) / (lam * (1 - Real.exp (-(lam * b))))

/-! Claim theorems. -/

/-- Claim C1: for both distribution families, the expected-profit function the
solver zeroes is exactly the spec's: with center `c` (μ for Normal, 1/λ for
Exponential), ask `a = c + S/2` and bid `b = c - S/2`, it returns
`0.5 * (profit_ask + profit_bid)` with
`profit_ask = (1-π)(a-c) + π(a - E[V|V>a])` and
`profit_bid = (1-π)(c-b) + π(E[V|V<b] - b)`, for every real candidate spread. -/
theorem expected_profit_matches_spec :
    ∀ (mu sigma pi S lam : ℝ),
      normalExpectedProfit mu sigma pi S =
        specProfit mu (specNormalUpper mu sigma) (specNormalLower mu sigma) pi S ∧
      expExpectedProfit lam pi S =
        specProfit (1 / lam) (specExpUpper lam) (specExpLower lam) pi S := by
  intro mu sigma pi S lam
  exact ⟨rfl, rfl⟩

/-- Claim C2: for every input on which `bid_ask_normal` or
`bid_ask_exponential` returns a triple `(bid, ask, spread)`, the identity
`ask - bid = spread` holds exactly. -/
theorem returned_ask_minus_bid_eq_spread :
    ∀ (fsolve : (ℝ → ℝ) → ℝ → ℝ) (mu sigma pi g lam : ℝ),
      (bid_ask_normal fsolve mu sigma pi g).2.1 -
          (bid_ask_normal fsolve mu sigma pi g).1 =
        (bid_ask_normal fsolve mu sigma pi g).2.2 ∧
      (bid_ask_exponential fsolve lam pi g).2.1 -
          (bid_ask_exponential fsolve lam pi g).1 =
        (bid_ask_exponential fsolve lam pi g).2.2 := by
  intro fsolve mu sigma pi g lam
  constructor
  · simp only [bid_ask_normal]
    ring
  · simp only [bid_ask_exponential]
    ring

/-- Claim C3: every triple returned by `bid_ask_normal` or
`bid_ask_exponential` is symmetric around the distribution's center (μ for
Normal, 1/λ for Exponential): `bid = center - spread/2`,
`ask = center + spread/2`, and `(bid + ask)/2 = center`. -/
theorem bid_ask_symmetric_around_center :
    ∀ (fsolve : (ℝ → ℝ) → ℝ → ℝ) (mu sigma pi g lam : ℝ),
      ((bid_ask_normal fsolve mu sigma pi g).1 =
          mu - (bid_ask_normal fsolve mu sigma pi g).2.2 / 2 ∧
        (bid_ask_normal fsolve mu sigma pi g).2.1 =
          mu + (bid_ask_normal fsolve mu sigma pi g).2.2 / 2 ∧
        ((bid_ask_normal fsolve mu sigma pi g).1 +
            (bid_ask_normal fsolve mu sigma pi g).2.1) / 2 = mu) ∧
      ((bid_ask_exponential fsolve lam pi g).1 =
          1 / lam - (bid_ask_exponential fsolve lam pi g).2.2 / 2 ∧
        (bid_ask_exponential fsolve lam pi g).2.1 =
          1 / lam + (bid_ask_exponential fsolve lam pi g).2.2 / 2 ∧
        ((bid_ask_exponential fsolve lam pi g).1 +
            (bid_ask_exponential fsolve lam pi g).2.1) / 2 = 1 / lam) := by
  intro fsolve mu sigma pi g lam
  constructor
  · refine ⟨rfl, rfl, ?_⟩
    simp only [bid_ask_normal]
    ring
  · refine ⟨rfl, rfl, ?_⟩
    simp only [bid_ask_exponential, expEV]
    ring

/-- Claim C4: for the Normal family, the conditional expectations used inside
the profit function equal the spec's truncated-normal formulas at the
thresholds `a = μ + S/2` and `b = μ - S/2` produced from every candidate
spread `S`. -/
theorem normal_conditional_expectations_match_spec :
    ∀ (mu sigma S : ℝ),
      normalE_V_gt_a mu sigma S = specNormalUpper mu sigma (normalAsk mu S) ∧
      normalE_V_lt_b mu sigma S = specNormalLower mu sigma (normalBid mu S) := by
  intro mu sigma S
  exact ⟨rfl, rfl⟩

/-- Claim C5: for the Exponential family, the upper conditional mean used by
the engine satisfies the memoryless identity `E[V | V > a] = a + 1/λ` at every
threshold `a` (every real `a` is the ask threshold of some candidate spread),
independent of the root-finding solver. -/
theorem exponential_memoryless_upper_mean :
    ∀ (lam a : ℝ), ∃ S : ℝ,
      expAsk lam S = a ∧ expE_V_gt_a lam S = a + 1 / lam := by
  intro lam a
  refine ⟨2 * (a - expEV lam), ?_, ?_⟩
  · simp only [expAsk, expEV]
    ring
  · simp only [expE_V_gt_a, expAsk, expEV]
    ring

/-- Claim C6 (code evaluation): with `σ = 0` or `λ = 0` the source performs no
parameter validation: it still builds the profit function, invokes the root
finder on it, and returns the raw solver output as the spread — there is no
Invalid-Parameter error path anywhere in the code. -/
theorem no_parameter_validation :
    ∀ (fsolve : (ℝ → ℝ) → ℝ → ℝ) (mu pi g : ℝ),
      (bid_ask_normal fsolve mu 0 pi g).2.2 =
        fsolve (normalExpectedProfit mu 0 pi) g ∧
      (bid_ask_exponential fsolve 0 pi g).2.2 =
        fsolve (expExpectedProfit 0 pi) g := by
  intro fsolve mu pi g
  exact ⟨rfl, rfl⟩

/-- Claim C7 (code evaluation): the Exponential lower-tail conditional mean is
computed as an unconditional ratio with no near-zero guard, and at the
candidate spread `S = 2/λ` the bid threshold `b` is exactly `0`, where the
denominator `λ·(1 - e^{-λb})` of `E[V | V < b]` vanishes — the division is by
zero (`0/0`, i.e. NaN in the floating-point source) and no saturating limit
`b/2` is ever returned. -/
theorem exp_lower_mean_denominator_vanishes :
    ∀ lam : ℝ,
      expBid lam (2 / lam) = 0 ∧
      lam * (1 - Real.exp (-(lam * expBid lam (2 / lam)))) = 0 ∧
      expE_V_lt_b lam (2 / lam) =
        (1 - Real.exp (-(lam * 0)) * (1 + lam * 0)) / (lam * (1 - Real.exp (-(lam * 0)))) := by
  intro lam
  have hb : expBid lam (2 / lam) = 0 := by
    simp only [expBid, expEV]
    ring
  refine ⟨hb, ?_, ?_⟩
  · rw [hb]
    simp
  · simp only [expE_V_lt_b, hb]

/-- Claim C8: in the degenerate case `π = 0`, both profit functions reduce to
`S/2`, whose unique root is `S = 0`; consequently the spread the solver
returns is within twice the residual of the profit function at that spread,
so a solver meeting tolerance `tol` returns a spread of magnitude at most
`2·tol`. -/
theorem pi_zero_profit_reduces_to_half_spread :
    ∀ (mu sigma lam S : ℝ),
      normalExpectedProfit mu sigma 0 S = S / 2 ∧
      expExpectedProfit lam 0 S = S / 2 ∧
      (normalExpectedProfit mu sigma 0 S = 0 ↔ S = 0) ∧
      (expExpectedProfit lam 0 S = 0 ↔ S = 0) ∧
      |S| = 2 * |normalExpectedProfit mu sigma 0 S| ∧
      |S| = 2 * |expExpectedProfit lam 0 S| := by
  intro mu sigma lam S
  have hn : normalExpectedProfit mu sigma 0 S = S / 2 := by
    simp only [normalExpectedProfit, normalProfitAsk, normalProfitBid,
      normalAsk, normalBid]
    ring
  have he : expExpectedProfit lam 0 S = S / 2 := by
    simp only [expExpectedProfit, expProfitAsk, expProfitBid,
      expAsk, expBid, expEV]
    ring
  have habs : |S| = 2 * |S / 2| := by
    rw [abs_div]
    simp [abs_two]
    ring
  refine ⟨hn, he, ?_, ?_, ?_, ?_⟩
  · rw [hn]; constructor <;> intro h <;> linarith
  · rw [he]; constructor <;> intro h <;> linarith
  · rw [hn]; exact habs
  · rw [he]; exact habs

/-! Analytic facts about the standard normal density and CDF, needed to
separate the two sides of the normal profit function. -/

lemma normPdf_eq_gaussian : normPdf = ProbabilityTheory.gaussianPDFReal 0 1 := by
  funext x
  simp [normPdf, ProbabilityTheory.gaussianPDFReal, div_eq_mul_inv, mul_comm]

lemma normPdf_pos (x : ℝ) : 0 < normPdf x := by
  unfold normPdf
  apply div_pos (Real.exp_pos _)
  exact Real.sqrt_pos.mpr (by positivity)

lemma integrable_normPdf : Integrable normPdf := by
  rw [normPdf_eq_gaussian]
  exact ProbabilityTheory.integrable_gaussianPDFReal 0 1

lemma integral_normPdf : ∫ x, normPdf x = 1 := by
  rw [normPdf_eq_gaussian]
  exact ProbabilityTheory.integral_gaussianPDFReal_eq_one 0 one_ne_zero

lemma normPdf_neg (x : ℝ) : normPdf (-x) = normPdf x := by
  simp [normPdf, neg_sq]

lemma normCdf_zero : normCdf 0 = 1 / 2 := by
  have hsym : ∫ x in Set.Iic (0 : ℝ), normPdf x = ∫ x in Set.Ioi (0 : ℝ), normPdf x := by
    have h1 : ∫ x in Set.Iic (0 : ℝ), normPdf (-x) = ∫ x in Set.Ioi (-(0 : ℝ)), normPdf x :=
      integral_comp_neg_Iic 0 normPdf
    simp only [normPdf_neg, neg_zero] at h1
    exact h1
  have hsplit : (∫ x in Set.Iic (0 : ℝ), normPdf x) + ∫ x in Set.Ioi (0 : ℝ), normPdf x = 1 := by
    rw [← setIntegral_union (Set.Iic_disjoint_Ioi le_rfl) measurableSet_Ioi
      integrable_normPdf.integrableOn integrable_normPdf.integrableOn,
      Set.Iic_union_Ioi, setIntegral_univ, integral_normPdf]
  unfold normCdf
  linarith

lemma normPdf_anti {x y : ℝ} (h : x ^ 2 ≤ y ^ 2) : normPdf y ≤ normPdf x := by
  unfold normPdf
  have h2 : Real.exp (-y ^ 2 / 2) ≤ Real.exp (-x ^ 2 / 2) :=
    Real.exp_le_exp.mpr (by linarith)
  have h3 : (0 : ℝ) < Real.sqrt (2 * Real.pi) :=
    Real.sqrt_pos.mpr (by positivity)
  exact (div_le_div_iff_of_pos_right h3).mpr h2

lemma integral_Ioc_normPdf_ge (a b c : ℝ) (hab : a ≤ b)
    (hbound : ∀ x ∈ Set.Ioc a b, c ≤ normPdf x) :
    c * (b - a) ≤ ∫ x in Set.Ioc a b, normPdf x := by
  have hne : volume (Set.Ioc a b) ≠ ⊤ := by
    rw [Real.volume_Ioc]
    exact ENNReal.ofReal_ne_top
  have h := setIntegral_ge_of_const_le measurableSet_Ioc hne hbound
    integrable_normPdf.integrableOn
  rwa [Real.volume_Ioc, ENNReal.toReal_ofReal (by linarith)] at h

lemma normCdf_one_gt_half : 1 / 2 < normCdf 1 := by
  have hsplit : normCdf 1 = normCdf 0 + ∫ x in Set.Ioc (0 : ℝ) 1, normPdf x := by
    unfold normCdf
    rw [← setIntegral_union (Set.Iic_disjoint_Ioc le_rfl) measurableSet_Ioc
      integrable_normPdf.integrableOn integrable_normPdf.integrableOn,
      Set.Iic_union_Ioc_eq_Iic zero_le_one]
  have hb : ∀ x ∈ Set.Ioc (0 : ℝ) 1, normPdf 1 ≤ normPdf x := by
    intro x hx
    apply normPdf_anti
    nlinarith [hx.1, hx.2]
  have hge := integral_Ioc_normPdf_ge 0 1 (normPdf 1) zero_le_one hb
  have hp := normPdf_pos 1
  rw [normCdf_zero] at hsplit
  nlinarith

lemma normCdf_one_lt_one : normCdf 1 < 1 := by
  have hsplit : normCdf 1 + ∫ x in Set.Ioi (1 : ℝ), normPdf x = 1 := by
    unfold normCdf
    rw [← setIntegral_union (Set.Iic_disjoint_Ioi le_rfl) measurableSet_Ioi
      integrable_normPdf.integrableOn integrable_normPdf.integrableOn,
      Set.Iic_union_Ioi, setIntegral_univ, integral_normPdf]
  have hmono : (∫ x in Set.Ioc (1 : ℝ) 2, normPdf x) ≤ ∫ x in Set.Ioi (1 : ℝ), normPdf x := by
    apply setIntegral_mono_set integrable_normPdf.integrableOn
      (ae_of_all _ fun x => (normPdf_pos x).le)
      (HasSubset.Subset.eventuallyLE Set.Ioc_subset_Ioi_self)
  have hb : ∀ x ∈ Set.Ioc (1 : ℝ) 2, normPdf 2 ≤ normPdf x := by
    intro x hx
    apply normPdf_anti
    nlinarith [hx.1, hx.2]
  have hge := integral_Ioc_normPdf_ge 1 2 (normPdf 2) one_le_two hb
  have hp := normPdf_pos 2
  nlinarith

/-- Claim C10 (counterexample): the two sides of the normal quote are not
symmetric.  At `μ = 0`, `σ = 1`, `π = 1/2`, `S = 2` the code's per-side
profits differ: the ask side divides `σφ(z)` by `1 - Φ(z)` while the bid side
divides by `Φ(z)`, at the same `z = S/(2σ) = 1`, and `Φ(1) ≠ 1/2`. -/
theorem normal_sides_not_symmetric :
    normalProfitAsk 0 1 (1 / 2) 2 ≠ normalProfitBid 0 1 (1 / 2) 2 := by
  have hza : normal_z_a 0 1 2 = 1 := by
    norm_num [normal_z_a, normalAsk]
  have hzb : normal_z_b 0 1 2 = 1 := by
    norm_num [normal_z_b, normalBid]
  have e1 : normalProfitAsk 0 1 (1 / 2) 2 = 1 - normPdf 1 / (1 - normCdf 1) / 2 := by
    simp only [normalProfitAsk, normalE_V_gt_a, hza, normalAsk]
    ring
  have e2 : normalProfitBid 0 1 (1 / 2) 2 = 1 - normPdf 1 / normCdf 1 / 2 := by
    simp only [normalProfitBid, normalE_V_lt_b, hzb, normalBid]
    ring
  have hP := normPdf_pos 1
  have h1 := normCdf_one_gt_half
  have h2 := normCdf_one_lt_one
  have key : normPdf 1 / normCdf 1 < normPdf 1 / (1 - normCdf 1) :=
    div_lt_div_of_pos_left hP (by linarith) (by linarith)
  rw [e1, e2]
  intro h
  linarith

/-- Claim C10 (amended): for the Normal family the two per-side profits are
not identical in general — the ask side divides by `1 - Φ(z)` and the bid
side by `Φ(z)`, both at `z = (S/2)/σ`; the averaged profit the solver zeroes
equals `(1-π)·S/2 + π·(S/2 - (σφ(z)/(1-Φ(z)) + σφ(z)/Φ(z))/2)`. -/
theorem normal_profit_average_formula :
    ∀ (mu sigma pi S : ℝ),
      normal_z_a mu sigma S = S / 2 / sigma ∧
      normal_z_b mu sigma S = S / 2 / sigma ∧
      normalExpectedProfit mu sigma pi S =
        (1 - pi) * (S / 2) +
          pi * (S / 2 -
            (sigma * normPdf (S / 2 / sigma) / (1 - normCdf (S / 2 / sigma)) +
              sigma * normPdf (S / 2 / sigma) / normCdf (S / 2 / sigma)) / 2) := by
  intro mu sigma pi S
  have hza : normal_z_a mu sigma S = S / 2 / sigma := by
    simp only [normal_z_a, normalAsk]
    ring
  have hzb : normal_z_b mu sigma S = S / 2 / sigma := by
    simp only [normal_z_b, normalBid]
    ring
  refine ⟨hza, hzb, ?_⟩
  simp only [normalExpectedProfit, normalProfitAsk, normalProfitBid,
    normalE_V_gt_a, normalE_V_lt_b, hza, hzb, normalAsk, normalBid]
  ring

end CopelandGalaiCalc
